import Mathlib

/-!
Verification of a Game of Life implementation.

The program keeps a `W × H` grid of cells, each cell storing its own grid
position and a `dead` flag.  Each timer tick, if enough time has elapsed, a
staged reset clears the board and then, when running, the board advances one
generation in place, reading neighbor counts from a snapshot (`board_copy`)
taken before the loop.  Key events toggle the `run` flag or stage a reset;
mouse events map screen coordinates to a grid slot by integer division and
toggle that cell, indexing the board without a bounds check.

The embedding below mirrors the source: boards are lists of columns
(`board[x][y]`), machine integers become `Nat`/`Int`, the in-place update loop
becomes a fold over grid positions, and the unchecked indexing in the mouse
handler becomes an `Option` (with `none` for the out-of-bounds panic).
-/

/-- Grid position, source struct `GridPosition { x: i16, y: i16 }`. -/
structure GridPosition where
  x : Int
  y : Int
deriving DecidableEq, Repr

/-- A cell, source struct `Cell { position, dead }`. -/
structure Cell where
  position : GridPosition
  dead : Bool
deriving DecidableEq, Repr

/-- The board is a vector of columns of cells, indexed `board[x][y]`. -/
abbrev Board := List (List Cell)

/-- Default cell used to totalize out-of-bounds reads (never hit on
well-formed boards, where the source's indexing cannot panic). -/
def defaultCell : Cell := ⟨⟨0, 0⟩, true⟩

/-- Read `board[x][y]`. -/
def getCell (b : Board) (x y : Nat) : Cell := (b.getD x []).getD y defaultCell

/-- Write `board[x][y] = c` (no-op out of bounds). -/
def setCell (b : Board) (x y : Nat) (c : Cell) : Board :=
  b.set x ((b.getD x []).set y c)

/-- The board has exactly `W` columns of height `H`. -/
def wfBoard (W H : Nat) (b : Board) : Prop :=
  b.length = W ∧ ∀ x, x < W → (b.getD x []).length = H

/-- Spec invariant: every cell's stored position equals its grid slot. -/
def posInv (W H : Nat) (b : Board) : Prop :=
  ∀ x, x < W → ∀ y, y < H → (getCell b x y).position = ⟨(x : Int), (y : Int)⟩

/-- Every in-range cell is dead. -/
def allDead (W H : Nat) (b : Board) : Prop :=
  ∀ x, x < W → ∀ y, y < H → (getCell b x y).dead = true

instance (W H : Nat) (b : Board) : Decidable (wfBoard W H b) := by
  unfold wfBoard; infer_instance

instance (W H : Nat) (b : Board) : Decidable (posInv W H b) := by
  unfold posInv; infer_instance

instance (W H : Nat) (b : Board) : Decidable (allDead W H b) := by
  unfold allDead; infer_instance

/-- Source `GameState::neighbor_count`: count the live cells among the up to 8
neighbors of `cell.position`, with each direction guarded by an edge test.
The source's eight nested `if`s are flattened into eight indicator terms in
the same order (left, top-left, bottom-left, right, top-right, bottom-right,
top, bottom). -/
def neighbor_count (W H : Nat) (board : Board) (cell : Cell) : Nat :=
  (if cell.position.x.toNat ≠ 0 ∧
      (getCell board (cell.position.x.toNat - 1) cell.position.y.toNat).dead = false
   then 1 else 0) +
  (if cell.position.x.toNat ≠ 0 ∧ cell.position.y.toNat ≠ 0 ∧
      (getCell board (cell.position.x.toNat - 1) (cell.position.y.toNat - 1)).dead = false
   then 1 else 0) +
  (if cell.position.x.toNat ≠ 0 ∧ cell.position.y.toNat ≠ H - 1 ∧
      (getCell board (cell.position.x.toNat - 1) (cell.position.y.toNat + 1)).dead = false
   then 1 else 0) +
  (if cell.position.x.toNat ≠ W - 1 ∧
      (getCell board (cell.position.x.toNat + 1) cell.position.y.toNat).dead = false
   then 1 else 0) +
  (if cell.position.x.toNat ≠ W - 1 ∧ cell.position.y.toNat ≠ 0 ∧
      (getCell board (cell.position.x.toNat + 1) (cell.position.y.toNat - 1)).dead = false
   then 1 else 0) +
  (if cell.position.x.toNat ≠ W - 1 ∧ cell.position.y.toNat ≠ H - 1 ∧
      (getCell board (cell.position.x.toNat + 1) (cell.position.y.toNat + 1)).dead = false
   then 1 else 0) +
  (if cell.position.y.toNat ≠ 0 ∧
      (getCell board cell.position.x.toNat (cell.position.y.toNat - 1)).dead = false
   then 1 else 0) +
  (if cell.position.y.toNat ≠ H - 1 ∧
      (getCell board cell.position.x.toNat (cell.position.y.toNat + 1)).dead = false
   then 1 else 0)

/-- The transition of one cell's `dead` flag, as written in the source's
update loop: a dead cell is revived exactly on 3 neighbors, a live cell is
killed on 0, 1 or at least 4 neighbors; otherwise the flag is left alone. -/
def updateCellDead (dead : Bool) (neighbors : Nat) : Bool :=
  if dead then (if neighbors = 3 then false else true)
  else (if neighbors = 0 ∨ neighbors = 1 ∨ 4 ≤ neighbors then true else false)

/-- One iteration of the source's in-place update loop at slot `(x, y)`:
read the cell from the current (partially updated) board `b`, count its
neighbors on the snapshot `board_copy`, and conditionally write the flag. -/
def stepAt (W H : Nat) (board_copy : Board) (b : Board) (x y : Nat) : Board :=
  let cell := getCell b x y
  let neighbors := neighbor_count W H board_copy cell
  if cell.dead then
    (if neighbors = 3 then setCell b x y { cell with dead := false } else b)
  else
    (if neighbors = 0 ∨ neighbors = 1 ∨ 4 ≤ neighbors then
      setCell b x y { cell with dead := true } else b)

/-- The grid positions in the order the source's nested loops visit them. -/
def gridPositions (W H : Nat) : List (Nat × Nat) :=
  (List.range W).flatMap (fun x => (List.range H).map (fun y => (x, y)))

/-- The `run` branch of `GameState::update`: clone the board, then update
every slot in place, reading neighbors from the clone. -/
def step (W H : Nat) (board : Board) : Board :=
  let board_copy := board
  (gridPositions W H).foldl (fun b p => stepAt W H board_copy b p.1 p.2) board

/-- The `reset_board` branch of `GameState::update`: set every slot's
`dead` flag to `true` in place. -/
def clearBoard (W H : Nat) (b : Board) : Board :=
  (gridPositions W H).foldl
    (fun acc p => setCell acc p.1 p.2 { getCell acc p.1 p.2 with dead := true }) b

/-- Source `GameState::generate_board`: build the full grid with every cell
dead at its own position, then mark the randomly drawn positions alive.  The
random draws (each in `[0,W) × [0,H)` by `gen_range`) are passed in as a
list. -/
def generate_board (W H : Nat) (random_positions : List GridPosition) : Board :=
  let base : Board := (List.range W).map
    (fun (x : Nat) => (List.range H).map
      (fun (y : Nat) => { position := ⟨(x : Int), (y : Int)⟩, dead := true }))
  random_positions.foldl
    (fun b p =>
      setCell b p.x.toNat p.y.toNat
        { getCell b p.x.toNat p.y.toNat with dead := false })
    base

/-- Source struct `GameState`; `last_update` is a timestamp in milliseconds. -/
structure GameState where
  board : Board
  last_update : Nat
  run : Bool
  reset_board : Bool
deriving DecidableEq

/-- Source `GameState::new`: seeded board, not running, no reset staged. -/
def GameState.new (W H : Nat) (random_positions : List GridPosition) (t0 : Nat) :
    GameState :=
  { board := generate_board W H random_positions
    last_update := t0
    run := false
    reset_board := false }

/-- Source `GameState::update` (the tick handler): if at least `mpu`
milliseconds have elapsed since `last_update`, apply a staged reset, then a
generation step when running, and record the tick time; otherwise do
nothing. -/
def update (W H mpu now : Nat) (s : GameState) : GameState :=
  if mpu ≤ now - s.last_update then
    (let s1 := if s.reset_board then
        { s with board := clearBoard W H s.board, reset_board := false } else s
     let s2 := if s1.run then { s1 with board := step W H s1.board } else s1
     { s2 with last_update := now })
  else s

/-- The key codes distinguished by the source's `key_down_event`. -/
inductive KeyCode where
  | Space
  | Back
  | Other (code : Nat)
deriving DecidableEq

/-- Source `GameState::key_down_event`: Space toggles `run`, Back stages a
reset, anything else only prints a message. -/
def key_down_event (keycode : KeyCode) (s : GameState) : GameState :=
  match keycode with
  | KeyCode.Space => if s.run then { s with run := false } else { s with run := true }
  | KeyCode.Back => { s with reset_board := true }
  | KeyCode.Other _ => s

/-- Source `GameState::mouse_button_down_event`: divide the (integer) screen
coordinates by the cell size with truncating division, then match on
`board[grid_x][grid_y]` — replacing a dead cell by a fresh live cell at the
computed position, or killing a live cell in place.  The source indexes with
`as usize` casts and no bounds check, so a coordinate mapping outside the
board (including a negative quotient, which wraps to a huge `usize`) panics:
modelled as `none`. -/
def mouse_button_down_event (cellW cellH : Nat) (x y : Int) (s : GameState) :
    Option GameState :=
  let grid_x := Int.tdiv x (cellW : Int)
  let grid_y := Int.tdiv y (cellH : Int)
  if 0 ≤ grid_x ∧ grid_x.toNat < s.board.length ∧ 0 ≤ grid_y ∧
      grid_y.toNat < (s.board.getD grid_x.toNat []).length then
    (let gx := grid_x.toNat
     let gy := grid_y.toNat
     let cell := getCell s.board gx gy
     if cell.dead then
       some { s with board := setCell s.board gx gy (Cell.mk ⟨grid_x, grid_y⟩ false) }
     else
       some { s with board := setCell s.board gx gy { cell with dead := true } })
  else none

/-- The board mutation performed by an in-range click: the spec's `toggle`
operation, embedded from the `match` in `mouse_button_down_event`. -/
def toggle (b : Board) (gx gy : Nat) : Board :=
  let cell := getCell b gx gy
  if cell.dead then
    setCell b gx gy { position := ⟨(gx : Int), (gy : Int)⟩, dead := false }
  else
    setCell b gx gy { cell with dead := true }

/-- The eight neighbor offsets of the 8-adjacency (horizontal, vertical,
diagonal), in the order the source checks them. -/
def adjacentOffsets : List (Int × Int) :=
  [(-1, 0), (-1, -1), (-1, 1), (1, 0), (1, -1), (1, 1), (0, -1), (0, 1)]

/-- The offset `d` of `(x, y)` lands inside `[0,W) × [0,H)` on a live cell. -/
def inRangeAlive (W H : Nat) (b : Board) (ix iy : Int) : Prop :=
  0 ≤ ix ∧ ix < (W : Int) ∧ 0 ≤ iy ∧ iy < (H : Int) ∧
    (getCell b ix.toNat iy.toNat).dead = false

instance (W H : Nat) (b : Board) (ix iy : Int) : Decidable (inRangeAlive W H b ix iy) := by
  unfold inRangeAlive; infer_instance

/-- Spec-side neighbor count: the number of alive cells among the 8-adjacent
positions of `(x, y)` that lie inside the grid, neighbors falling outside
excluded (never wrapped). -/
def specNeighborCount (W H : Nat) (b : Board) (x y : Nat) : Nat :=
  (adjacentOffsets.filter
    (fun d => decide (inRangeAlive W H b ((x : Int) + d.1) ((y : Int) + d.2)))).length

/-- Spec-side transition rule (in terms of aliveness): birth on exactly 3,
survival on 2 or 3, death otherwise. -/
def specRule (alive : Bool) (n : Nat) : Bool :=
  if alive then decide (n = 2 ∨ n = 3) else decide (n = 3)

/-- Spec-side reference step: a fresh board where each cell's next value is
computed wholly from a snapshot of the previous generation, by the classical
rule applied to the spec-side neighbor count. -/
def stepSpec (W H : Nat) (b : Board) : Board :=
  (List.range W).map (fun x => (List.range H).map (fun y =>
    let c := getCell b x y
    { c with dead := !(specRule (!c.dead) (specNeighborCount W H b x y)) }))

/-- The discrete events the windowing runtime delivers to the handlers. -/
inductive GEvent where
  | tick (now : Nat)
  | key (k : KeyCode)
  | click (x y : Int)
deriving DecidableEq

/-- Dispatch one event to the corresponding handler; a click that panics in
the source propagates as `none`. -/
def applyEvent (W H cellW cellH mpu : Nat) (s : GameState) : GEvent → Option GameState
  | GEvent.tick now => some (update W H mpu now s)
  | GEvent.key k => some (key_down_event k s)
  | GEvent.click x y => mouse_button_down_event cellW cellH x y s

/-- Run a sequence of events from a state. -/
def applyEvents (W H cellW cellH mpu : Nat) : List GEvent → GameState → Option GameState
  | [], s => some s
  | e :: evs, s =>
    match applyEvent W H cellW cellH mpu s e with
    | some s' => applyEvents W H cellW cellH mpu evs s'
    | none => none

/-- Generic in-place write loop: visit the indices of `L` in order and at each
slot `(px p, py p)` overwrite the cell with `g p` of the current cell.  The
reset loop, the generation loop and the seeding loop are all of this shape. -/
def writeFold {ι : Type} (px py : ι → Nat) (g : ι → Cell → Cell)
    (L : List ι) (b : Board) : Board :=
  L.foldl (fun acc p => setCell acc (px p) (py p) (g p (getCell acc (px p) (py p)))) b

theorem getCell_def (b : Board) (x y : Nat) :
    getCell b x y = (b.getD x []).getD y defaultCell := rfl

theorem List.set_getD_self {α : Type} (l : List α) (n : Nat) (d : α) :
    l.set n (l.getD n d) = l := by
  by_cases h : n < l.length
  · apply List.ext_getElem?
    intro j
    rw [List.getElem?_set]
    split
    · next hnj =>
      subst hnj
      simp [h, List.getD_eq_getElem?_getD, List.getElem?_eq_getElem h]
    · rfl
  · exact List.set_eq_of_length_le (Nat.le_of_not_lt h)

theorem setCell_getCell_self (b : Board) (x y : Nat) :
    setCell b x y (getCell b x y) = b := by
  unfold setCell getCell
  rw [List.set_getD_self, List.set_getD_self]

theorem length_setCell (b : Board) (x y : Nat) (c : Cell) :
    (setCell b x y c).length = b.length := List.length_set ..

theorem getD_setCell (b : Board) (x y : Nat) (c : Cell) (i : Nat) :
    (setCell b x y c).getD i [] =
      if x = i then (if x < b.length then (b.getD x []).set y c else b.getD i [])
      else b.getD i [] := by
  unfold setCell
  rw [List.getD_eq_getElem?_getD, List.getElem?_set]
  split
  · next h =>
    subst h
    split
    · next h' => simp [List.getD_eq_getElem?_getD]
    · next h' =>
      simp only [Option.getD_none]
      rw [List.getD_eq_getElem?_getD, List.getElem?_eq_none (Nat.le_of_not_lt h')]
      rfl
  · rw [List.getD_eq_getElem?_getD]

theorem length_getD_setCell (b : Board) (x y : Nat) (c : Cell) (i : Nat) :
    ((setCell b x y c).getD i []).length = (b.getD i []).length := by
  rw [getD_setCell]
  split
  · next h =>
    subst h
    split
    · simp
    · rfl
  · rfl

theorem getCell_setCell_self (b : Board) (x y : Nat) (c : Cell)
    (hx : x < b.length) (hy : y < (b.getD x []).length) :
    getCell (setCell b x y c) x y = c := by
  unfold getCell
  rw [getD_setCell, if_pos rfl, if_pos hx, List.getD_eq_getElem?_getD,
    List.getElem?_set, if_pos rfl, if_pos hy, Option.getD_some]

theorem getCell_setCell_ne (b : Board) (x y : Nat) (c : Cell) (x' y' : Nat)
    (h : (x, y) ≠ (x', y')) :
    getCell (setCell b x y c) x' y' = getCell b x' y' := by
  unfold getCell
  rw [getD_setCell]
  split
  · next hx =>
    subst hx
    split
    · next hlt =>
      have hy : y ≠ y' := by
        intro hy; exact h (by rw [hy])
      rw [List.getD_eq_getElem?_getD, List.getElem?_set_ne hy, ← List.getD_eq_getElem?_getD]
    · rfl
  · rfl

theorem position_getCell_setCell (b : Board) (x y : Nat) (c : Cell)
    (hc : c.position = (getCell b x y).position) (x' y' : Nat) :
    (getCell (setCell b x y c) x' y').position = (getCell b x' y').position := by
  by_cases h : (x, y) = (x', y')
  · injection h with hx hy
    subst hx; subst hy
    by_cases hlt : x < b.length
    · by_cases hylt : y < (b.getD x []).length
      · rw [getCell_setCell_self b x y c hlt hylt, hc]
      · unfold getCell
        rw [getD_setCell, if_pos rfl, if_pos hlt, List.getD_eq_getElem?_getD,
          List.getElem?_set, if_pos rfl, if_neg hylt,
          List.getD_eq_getElem?_getD (b.getD x []),
          List.getElem?_eq_none (Nat.le_of_not_lt hylt)]
    · unfold setCell
      rw [List.set_eq_of_length_le (Nat.le_of_not_lt hlt)]
  · rw [getCell_setCell_ne b x y c x' y' h]

theorem length_writeFold {ι : Type} (px py : ι → Nat) (g : ι → Cell → Cell)
    (L : List ι) (b : Board) : (writeFold px py g L b).length = b.length := by
  induction L generalizing b with
  | nil => rfl
  | cons p L ih =>
    rw [writeFold, List.foldl_cons, ← writeFold, ih, length_setCell]

theorem length_getD_writeFold {ι : Type} (px py : ι → Nat) (g : ι → Cell → Cell)
    (L : List ι) (b : Board) (i : Nat) :
    ((writeFold px py g L b).getD i []).length = (b.getD i []).length := by
  induction L generalizing b with
  | nil => rfl
  | cons p L ih =>
    rw [writeFold, List.foldl_cons, ← writeFold, ih, length_getD_setCell]

theorem wfBoard_writeFold {ι : Type} (W H : Nat) (px py : ι → Nat)
    (g : ι → Cell → Cell) (L : List ι) (b : Board) (hwf : wfBoard W H b) :
    wfBoard W H (writeFold px py g L b) := by
  constructor
  · rw [length_writeFold]; exact hwf.1
  · intro i hi
    rw [length_getD_writeFold]; exact hwf.2 i hi

theorem position_writeFold {ι : Type} (px py : ι → Nat) (g : ι → Cell → Cell)
    (hg : ∀ p c, (g p c).position = c.position)
    (L : List ι) (b : Board) (x y : Nat) :
    (getCell (writeFold px py g L b) x y).position = (getCell b x y).position := by
  induction L generalizing b with
  | nil => rfl
  | cons p L ih =>
    rw [writeFold, List.foldl_cons, ← writeFold, ih,
      position_getCell_setCell _ _ _ _ (hg p _)]

theorem getCell_writeFold {ι : Type} (px py : ι → Nat) (g : Cell → Cell)
    (orig : Board) (L : List ι) (b : Board)
    (hnd : (L.map (fun p => (px p, py p))).Nodup)
    (hex : ∀ p ∈ L, px p < b.length ∧ py p < (b.getD (px p) []).length)
    (hb : ∀ p ∈ L, getCell b (px p) (py p) = getCell orig (px p) (py p))
    (x y : Nat) :
    getCell (writeFold px py (fun _ => g) L b) x y =
      if (x, y) ∈ L.map (fun p => (px p, py p)) then g (getCell orig x y)
      else getCell b x y := by
  induction L generalizing b with
  | nil => simp [writeFold]
  | cons p L ih =>
    rw [writeFold, List.foldl_cons, ← writeFold]
    rw [List.map_cons, List.nodup_cons] at hnd
    have hp := hex p (List.mem_cons_self p L)
    have hbp := hb p (List.mem_cons_self p L)
    have hex' : ∀ q ∈ L, px q < (setCell b (px p) (py p) (g (getCell b (px p) (py p)))).length ∧
        py q < ((setCell b (px p) (py p) (g (getCell b (px p) (py p)))).getD (px q) []).length := by
      intro q hq
      rw [length_setCell, length_getD_setCell]
      exact hex q (List.mem_cons_of_mem p hq)
    have hb' : ∀ q ∈ L, getCell (setCell b (px p) (py p) (g (getCell b (px p) (py p)))) (px q) (py q)
        = getCell orig (px q) (py q) := by
      intro q hq
      have hne : (px p, py p) ≠ (px q, py q) := by
        intro hqp
        exact hnd.1 (hqp ▸ List.mem_map_of_mem (fun r => (px r, py r)) hq)
      rw [getCell_setCell_ne _ _ _ _ _ _ hne]
      exact hb q (List.mem_cons_of_mem p hq)
    rw [ih _ hnd.2 hex' hb', List.map_cons]
    by_cases hmem : (x, y) ∈ L.map (fun r => (px r, py r))
    · rw [if_pos hmem, if_pos (List.mem_cons_of_mem _ hmem)]
    · rw [if_neg hmem]
      by_cases hxy : (x, y) = (px p, py p)
      · injection hxy with hx hy
        subst hx; subst hy
        rw [if_pos (List.mem_cons_self _ _)]
        rw [getCell_setCell_self _ _ _ _ hp.1 hp.2, hbp]
      · rw [if_neg (by
          intro hmem'
          rcases List.mem_cons.1 hmem' with h | h
          · exact hxy h
          · exact hmem h)]
        exact getCell_setCell_ne _ _ _ _ _ _ (fun h => hxy h.symm)

theorem mem_gridPositions (W H x y : Nat) :
    (x, y) ∈ gridPositions W H ↔ x < W ∧ y < H := by
  unfold gridPositions
  simp [List.mem_flatMap, List.mem_map, List.mem_range]

theorem nodup_gridPositions (W H : Nat) : (gridPositions W H).Nodup := by
  unfold gridPositions
  refine List.nodup_flatMap.2 ⟨?_, ?_⟩
  · intro x _
    exact (List.nodup_range H).map (fun y y' h => congrArg Prod.snd h)
  · refine (List.pairwise_lt_range W).imp ?_
    intro a b hab z hza hzb
    simp only [List.mem_map, List.mem_range] at hza hzb
    obtain ⟨ya, _, hya⟩ := hza
    obtain ⟨yb, _, hyb⟩ := hzb
    rw [← hyb] at hya
    injection hya with h1 h2
    omega

theorem map_id_gridPositions (W H : Nat) :
    (gridPositions W H).map (fun p => (p.1, p.2)) = gridPositions W H := by
  have h : (fun p : Nat × Nat => (p.1, p.2)) = id := funext fun p => rfl
  rw [h, List.map_id]

theorem stepAt_eq_setCell (W H : Nat) (orig b : Board) (x y : Nat) :
    stepAt W H orig b x y =
      setCell b x y
        { getCell b x y with
          dead := updateCellDead (getCell b x y).dead
            (neighbor_count W H orig (getCell b x y)) } := by
  have hself := setCell_getCell_self b x y
  rcases hc : getCell b x y with ⟨pos, d⟩
  rw [hc] at hself
  cases d
  · by_cases hn : neighbor_count W H orig ⟨pos, false⟩ = 0 ∨
        neighbor_count W H orig ⟨pos, false⟩ = 1 ∨
        4 ≤ neighbor_count W H orig ⟨pos, false⟩
    · simp [stepAt, hc, updateCellDead, hn]
    · simp [stepAt, hc, updateCellDead, hn, hself]
  · by_cases hn : neighbor_count W H orig ⟨pos, true⟩ = 3
    · simp [stepAt, hc, updateCellDead, hn]
    · simp [stepAt, hc, updateCellDead, hn, hself]

theorem foldl_fun_congr {α β : Type} (f g : β → α → β)
    (h : ∀ b a, f b a = g b a) (L : List α) (b : β) :
    L.foldl f b = L.foldl g b := by
  have hfg : f = g := funext fun b' => funext fun a => h b' a
  rw [hfg]

theorem step_eq_writeFold (W H : Nat) (board : Board) :
    step W H board = writeFold Prod.fst Prod.snd
      (fun _ c => { c with dead := updateCellDead c.dead (neighbor_count W H board c) })
      (gridPositions W H) board := by
  unfold step writeFold
  exact foldl_fun_congr _ _
    (fun (acc : Board) (p : Nat × Nat) => stepAt_eq_setCell W H board acc p.1 p.2) _ _

theorem clearBoard_eq_writeFold (W H : Nat) (b : Board) :
    clearBoard W H b = writeFold Prod.fst Prod.snd
      (fun _ c => { c with dead := true }) (gridPositions W H) b := rfl

theorem getCell_step (W H : Nat) (b : Board) (hwf : wfBoard W H b)
    (x y : Nat) (hx : x < W) (hy : y < H) :
    getCell (step W H b) x y =
      { getCell b x y with
        dead := updateCellDead (getCell b x y).dead
          (neighbor_count W H b (getCell b x y)) } := by
  rw [step_eq_writeFold]
  rw [getCell_writeFold Prod.fst Prod.snd _ b (gridPositions W H) b
    (by rw [map_id_gridPositions]; exact nodup_gridPositions W H)
    (by
      rintro ⟨px, py⟩ hp
      rw [mem_gridPositions] at hp
      refine ⟨by rw [hwf.1]; exact hp.1, by rw [hwf.2 px hp.1]; exact hp.2⟩)
    (fun p _ => rfl) x y]
  rw [map_id_gridPositions, if_pos ((mem_gridPositions W H x y).2 ⟨hx, hy⟩)]

theorem wfBoard_step (W H : Nat) (b : Board) (hwf : wfBoard W H b) :
    wfBoard W H (step W H b) := by
  rw [step_eq_writeFold]
  exact wfBoard_writeFold W H _ _ _ _ b hwf

theorem posInv_step (W H : Nat) (b : Board) (hpi : posInv W H b) :
    posInv W H (step W H b) := by
  intro x hx y hy
  rw [step_eq_writeFold, position_writeFold Prod.fst Prod.snd
    (fun _ c => { c with dead := updateCellDead c.dead (neighbor_count W H b c) })
    (fun _ _ => rfl) (gridPositions W H) b x y]
  exact hpi x hx y hy

theorem getCell_clearBoard (W H : Nat) (b : Board) (hwf : wfBoard W H b)
    (x y : Nat) (hx : x < W) (hy : y < H) :
    getCell (clearBoard W H b) x y = { getCell b x y with dead := true } := by
  rw [clearBoard_eq_writeFold]
  rw [getCell_writeFold Prod.fst Prod.snd _ b (gridPositions W H) b
    (by rw [map_id_gridPositions]; exact nodup_gridPositions W H)
    (by
      rintro ⟨px, py⟩ hp
      rw [mem_gridPositions] at hp
      refine ⟨by rw [hwf.1]; exact hp.1, by rw [hwf.2 px hp.1]; exact hp.2⟩)
    (fun p _ => rfl) x y]
  rw [map_id_gridPositions, if_pos ((mem_gridPositions W H x y).2 ⟨hx, hy⟩)]

theorem wfBoard_clearBoard (W H : Nat) (b : Board) (hwf : wfBoard W H b) :
    wfBoard W H (clearBoard W H b) := by
  rw [clearBoard_eq_writeFold]
  exact wfBoard_writeFold W H _ _ _ _ b hwf

theorem posInv_clearBoard (W H : Nat) (b : Board) (hpi : posInv W H b) :
    posInv W H (clearBoard W H b) := by
  intro x hx y hy
  rw [clearBoard_eq_writeFold, position_writeFold Prod.fst Prod.snd
    (fun _ c => { c with dead := true })
    (fun _ _ => rfl) (gridPositions W H) b x y]
  exact hpi x hx y hy

theorem allDead_clearBoard (W H : Nat) (b : Board) (hwf : wfBoard W H b) :
    allDead W H (clearBoard W H b) := by
  intro x hx y hy
  rw [getCell_clearBoard W H b hwf x y hx hy]

theorem getCell_dead_of_allDead (W H : Nat) (b : Board) (hwf : wfBoard W H b)
    (hall : allDead W H b) (i j : Nat) : (getCell b i j).dead = true := by
  by_cases hi : i < W
  · by_cases hj : j < H
    · exact hall i hi j hj
    · unfold getCell
      rw [List.getD_eq_getElem?_getD (b.getD i []) j,
        List.getElem?_eq_none (by rw [hwf.2 i hi]; omega)]
      rfl
  · unfold getCell
    rw [List.getD_eq_getElem?_getD b i,
      List.getElem?_eq_none (by rw [hwf.1]; omega)]
    rfl

theorem neighbor_count_zero_of_allDead (W H : Nat) (b : Board) (hwf : wfBoard W H b)
    (hall : allDead W H b) (cell : Cell) : neighbor_count W H b cell = 0 := by
  have hd := getCell_dead_of_allDead W H b hwf hall
  unfold neighbor_count
  simp [hd]

theorem allDead_step (W H : Nat) (b : Board) (hwf : wfBoard W H b)
    (hall : allDead W H b) : allDead W H (step W H b) := by
  intro x hx y hy
  rw [getCell_step W H b hwf x y hx hy]
  show updateCellDead (getCell b x y).dead (neighbor_count W H b (getCell b x y)) = true
  rw [neighbor_count_zero_of_allDead W H b hwf hall, hall x hx y hy]
  rfl

theorem indicator_le_one {c : Prop} [Decidable c] : (if c then 1 else 0) ≤ 1 := by
  split <;> omega

theorem neighbor_count_le_eight (W H : Nat) (b : Board) (cell : Cell) :
    neighbor_count W H b cell ≤ 8 := by
  unfold neighbor_count
  exact Nat.add_le_add (Nat.add_le_add (Nat.add_le_add (Nat.add_le_add
    (Nat.add_le_add (Nat.add_le_add (Nat.add_le_add indicator_le_one
      indicator_le_one) indicator_le_one) indicator_le_one) indicator_le_one)
      indicator_le_one) indicator_le_one) indicator_le_one

theorem neighbor_count_eq_spec (W H : Nat) (b : Board) (cell : Cell) (x y : Nat)
    (hx : x < W) (hy : y < H) (hpos : cell.position = ⟨(x : Int), (y : Int)⟩) :
    neighbor_count W H b cell = specNeighborCount W H b x y := by
  have hcx : cell.position.x.toNat = x := by rw [hpos]; exact Int.toNat_natCast x
  have hcy : cell.position.y.toNat = y := by rw [hpos]; exact Int.toNat_natCast y
  have ixm : ((x : Int) + -1).toNat = x - 1 := by omega
  have ixp : ((x : Int) + 1).toNat = x + 1 := by omega
  have ix0 : ((x : Int) + 0).toNat = x := by omega
  have iym : ((y : Int) + -1).toNat = y - 1 := by omega
  have iyp : ((y : Int) + 1).toNat = y + 1 := by omega
  have iy0 : ((y : Int) + 0).toNat = y := by omega
  have e1 : inRangeAlive W H b ((x : Int) + -1) ((y : Int) + 0) ↔
      (x ≠ 0 ∧ (getCell b (x - 1) y).dead = false) := by
    unfold inRangeAlive
    rw [ixm, iy0]
    constructor
    · rintro ⟨h1, h2, h3, h4, h5⟩
      exact ⟨by omega, h5⟩
    · rintro ⟨h1, h5⟩
      exact ⟨by omega, by omega, by omega, by omega, h5⟩
  have e2 : inRangeAlive W H b ((x : Int) + -1) ((y : Int) + -1) ↔
      (x ≠ 0 ∧ y ≠ 0 ∧ (getCell b (x - 1) (y - 1)).dead = false) := by
    unfold inRangeAlive
    rw [ixm, iym]
    constructor
    · rintro ⟨h1, h2, h3, h4, h5⟩
      exact ⟨by omega, by omega, h5⟩
    · rintro ⟨h1, h2, h5⟩
      exact ⟨by omega, by omega, by omega, by omega, h5⟩
  have e3 : inRangeAlive W H b ((x : Int) + -1) ((y : Int) + 1) ↔
      (x ≠ 0 ∧ y ≠ H - 1 ∧ (getCell b (x - 1) (y + 1)).dead = false) := by
    unfold inRangeAlive
    rw [ixm, iyp]
    constructor
    · rintro ⟨h1, h2, h3, h4, h5⟩
      exact ⟨by omega, by omega, h5⟩
    · rintro ⟨h1, h2, h5⟩
      exact ⟨by omega, by omega, by omega, by omega, h5⟩
  have e4 : inRangeAlive W H b ((x : Int) + 1) ((y : Int) + 0) ↔
      (x ≠ W - 1 ∧ (getCell b (x + 1) y).dead = false) := by
    unfold inRangeAlive
    rw [ixp, iy0]
    constructor
    · rintro ⟨h1, h2, h3, h4, h5⟩
      exact ⟨by omega, h5⟩
    · rintro ⟨h1, h5⟩
      exact ⟨by omega, by omega, by omega, by omega, h5⟩
  have e5 : inRangeAlive W H b ((x : Int) + 1) ((y : Int) + -1) ↔
      (x ≠ W - 1 ∧ y ≠ 0 ∧ (getCell b (x + 1) (y - 1)).dead = false) := by
    unfold inRangeAlive
    rw [ixp, iym]
    constructor
    · rintro ⟨h1, h2, h3, h4, h5⟩
      exact ⟨by omega, by omega, h5⟩
    · rintro ⟨h1, h2, h5⟩
      exact ⟨by omega, by omega, by omega, by omega, h5⟩
  have e6 : inRangeAlive W H b ((x : Int) + 1) ((y : Int) + 1) ↔
      (x ≠ W - 1 ∧ y ≠ H - 1 ∧ (getCell b (x + 1) (y + 1)).dead = false) := by
    unfold inRangeAlive
    rw [ixp, iyp]
    constructor
    · rintro ⟨h1, h2, h3, h4, h5⟩
      exact ⟨by omega, by omega, h5⟩
    · rintro ⟨h1, h2, h5⟩
      exact ⟨by omega, by omega, by omega, by omega, h5⟩
  have e7 : inRangeAlive W H b ((x : Int) + 0) ((y : Int) + -1) ↔
      (y ≠ 0 ∧ (getCell b x (y - 1)).dead = false) := by
    unfold inRangeAlive
    rw [ix0, iym]
    constructor
    · rintro ⟨h1, h2, h3, h4, h5⟩
      exact ⟨by omega, h5⟩
    · rintro ⟨h1, h5⟩
      exact ⟨by omega, by omega, by omega, by omega, h5⟩
  have e8 : inRangeAlive W H b ((x : Int) + 0) ((y : Int) + 1) ↔
      (y ≠ H - 1 ∧ (getCell b x (y + 1)).dead = false) := by
    unfold inRangeAlive
    rw [ix0, iyp]
    constructor
    · rintro ⟨h1, h2, h3, h4, h5⟩
      exact ⟨by omega, h5⟩
    · rintro ⟨h1, h5⟩
      exact ⟨by omega, by omega, by omega, by omega, h5⟩
  unfold neighbor_count
  rw [hcx, hcy]
  unfold specNeighborCount adjacentOffsets
  rw [← List.countP_eq_length_filter]
  simp only [List.countP_cons, List.countP_nil, decide_eq_true_eq]
  simp only [e1, e2, e3, e4, e5, e6, e7, e8]
  omega

theorem updateCellDead_eq_specRule (d : Bool) (n : Nat) :
    updateCellDead d n = !(specRule (!d) n) := by
  cases d
  · by_cases hn : n = 0 ∨ n = 1 ∨ 4 ≤ n
    · have h23 : ¬(n = 2 ∨ n = 3) := by omega
      simp [updateCellDead, specRule, hn, h23]
    · have h23 : n = 2 ∨ n = 3 := by omega
      simp [updateCellDead, specRule, hn, h23]
  · by_cases hn : n = 3
    · simp [updateCellDead, specRule, hn]
    · simp [updateCellDead, specRule, hn]

theorem getD_eq_getElem_of_lt {α : Type} (l : List α) (n : Nat) (d : α)
    (h : n < l.length) : l.getD n d = l[n] := by
  rw [List.getD_eq_getElem?_getD, List.getElem?_eq_getElem h]
  rfl

theorem board_ext (W H : Nat) (b1 b2 : Board) (h1 : wfBoard W H b1)
    (h2 : wfBoard W H b2)
    (h : ∀ x, x < W → ∀ y, y < H → getCell b1 x y = getCell b2 x y) : b1 = b2 := by
  apply List.ext_getElem (by rw [h1.1, h2.1])
  intro x hx1 hx2
  have hxW : x < W := by rw [← h1.1]; exact hx1
  have e1 : b1.getD x [] = b1[x] := getD_eq_getElem_of_lt b1 x [] hx1
  have e2 : b2.getD x [] = b2[x] := getD_eq_getElem_of_lt b2 x [] hx2
  apply List.ext_getElem (by rw [← e1, ← e2, h1.2 x hxW, h2.2 x hxW])
  intro y hy1 hy2
  have hyH : y < H := by
    rw [← e1] at hy1
    rw [← h1.2 x hxW]
    exact hy1
  have hc := h x hxW y hyH
  unfold getCell at hc
  rw [e1, e2] at hc
  rw [getD_eq_getElem_of_lt _ y defaultCell hy1,
    getD_eq_getElem_of_lt _ y defaultCell hy2] at hc
  exact hc

theorem getD_map_range {α : Type} (W : Nat) (f : Nat → α) (d : α) (x : Nat)
    (hx : x < W) : ((List.range W).map f).getD x d = f x := by
  rw [getD_eq_getElem_of_lt _ _ _ (by simp [hx])]
  simp

theorem getCell_stepSpec (W H : Nat) (b : Board) (x y : Nat)
    (hx : x < W) (hy : y < H) :
    getCell (stepSpec W H b) x y =
      { getCell b x y with
        dead := !(specRule (!(getCell b x y).dead) (specNeighborCount W H b x y)) } := by
  unfold stepSpec getCell
  rw [getD_map_range W _ [] x hx, getD_map_range H _ defaultCell y hy]

theorem wfBoard_stepSpec (W H : Nat) (b : Board) : wfBoard W H (stepSpec W H b) := by
  constructor
  · simp [stepSpec]
  · intro x hx
    unfold stepSpec
    rw [getD_map_range W _ [] x hx]
    simp

theorem step_eq_stepSpec (W H : Nat) (b : Board) (hwf : wfBoard W H b)
    (hpi : posInv W H b) : step W H b = stepSpec W H b := by
  apply board_ext W H _ _ (wfBoard_step W H b hwf) (wfBoard_stepSpec W H b)
  intro x hx y hy
  rw [getCell_step W H b hwf x y hx hy, getCell_stepSpec W H b x y hx hy]
  have hn := neighbor_count_eq_spec W H b (getCell b x y) x y hx hy (hpi x hx y hy)
  rw [← hn, updateCellDead_eq_specRule]

theorem setCell_setCell (b : Board) (x y : Nat) (c c' : Cell) :
    setCell (setCell b x y c) x y c' = setCell b x y c' := by
  by_cases hx : x < b.length
  · have hrow : (setCell b x y c).getD x [] = (b.getD x []).set y c := by
      rw [getD_setCell, if_pos rfl, if_pos hx]
    show (setCell b x y c).set x (((setCell b x y c).getD x []).set y c')
        = b.set x ((b.getD x []).set y c')
    rw [hrow, List.set_set]
    show (b.set x ((b.getD x []).set y c)).set x ((b.getD x []).set y c')
        = b.set x ((b.getD x []).set y c')
    rw [List.set_set]
  · have h1 : setCell b x y c = b := by
      unfold setCell
      exact List.set_eq_of_length_le (by omega)
    rw [h1]

theorem toggle_toggle (W H : Nat) (b : Board) (hwf : wfBoard W H b)
    (hpi : posInv W H b) (gx gy : Nat) (hx : gx < W) (hy : gy < H) :
    toggle (toggle b gx gy) gx gy = b := by
  have hxlen : gx < b.length := by rw [hwf.1]; exact hx
  have hylen : gy < (b.getD gx []).length := by rw [hwf.2 gx hx]; exact hy
  have hposc := hpi gx hx gy hy
  rcases hc : getCell b gx gy with ⟨pos, d⟩
  rw [hc] at hposc
  simp only at hposc
  cases d
  · have h1 : toggle b gx gy = setCell b gx gy ⟨pos, true⟩ := by
      simp [toggle, hc]
    have h2 : getCell (setCell b gx gy ⟨pos, true⟩) gx gy = ⟨pos, true⟩ :=
      getCell_setCell_self b gx gy _ hxlen hylen
    have h3 : toggle (setCell b gx gy ⟨pos, true⟩) gx gy
        = setCell (setCell b gx gy ⟨pos, true⟩) gx gy
            ⟨⟨(gx : Int), (gy : Int)⟩, false⟩ := by
      simp [toggle, h2]
    rw [h1, h3, setCell_setCell, ← hposc]
    rw [show (Cell.mk pos false) = getCell b gx gy from hc.symm]
    exact setCell_getCell_self b gx gy
  · have h1 : toggle b gx gy = setCell b gx gy ⟨⟨(gx : Int), (gy : Int)⟩, false⟩ := by
      simp [toggle, hc]
    have h2 : getCell (setCell b gx gy ⟨⟨(gx : Int), (gy : Int)⟩, false⟩) gx gy
        = ⟨⟨(gx : Int), (gy : Int)⟩, false⟩ :=
      getCell_setCell_self b gx gy _ hxlen hylen
    have h3 : toggle (setCell b gx gy ⟨⟨(gx : Int), (gy : Int)⟩, false⟩) gx gy
        = setCell (setCell b gx gy ⟨⟨(gx : Int), (gy : Int)⟩, false⟩) gx gy
            ⟨⟨(gx : Int), (gy : Int)⟩, true⟩ := by
      simp [toggle, h2]
    rw [h1, h3, setCell_setCell, ← hposc]
    rw [show (Cell.mk pos true) = getCell b gx gy from hc.symm]
    exact setCell_getCell_self b gx gy

theorem wfBoard_setCell (W H : Nat) (b : Board) (x y : Nat) (c : Cell)
    (hwf : wfBoard W H b) : wfBoard W H (setCell b x y c) := by
  constructor
  · rw [length_setCell]; exact hwf.1
  · intro i hi
    rw [length_getD_setCell]; exact hwf.2 i hi

theorem generate_board_eq_writeFold (W H : Nat) (rps : List GridPosition) :
    generate_board W H rps = writeFold (fun p : GridPosition => p.x.toNat)
      (fun p => p.y.toNat) (fun _ c => { c with dead := false }) rps
      ((List.range W).map (fun (x : Nat) => (List.range H).map
        (fun (y : Nat) => { position := ⟨(x : Int), (y : Int)⟩, dead := true }))) := rfl

theorem wfBoard_base_board (W H : Nat) :
    wfBoard W H ((List.range W).map (fun (x : Nat) => (List.range H).map
      (fun (y : Nat) => ({ position := ⟨(x : Int), (y : Int)⟩, dead := true } : Cell)))) := by
  constructor
  · simp
  · intro x hx
    rw [getD_map_range W _ [] x hx]
    simp

theorem getCell_base_board (W H : Nat) (x y : Nat) (hx : x < W) (hy : y < H) :
    getCell ((List.range W).map (fun (x : Nat) => (List.range H).map
      (fun (y : Nat) => ({ position := ⟨(x : Int), (y : Int)⟩, dead := true } : Cell)))) x y
    = { position := ⟨(x : Int), (y : Int)⟩, dead := true } := by
  unfold getCell
  rw [getD_map_range W _ [] x hx, getD_map_range H _ defaultCell y hy]

theorem wfBoard_generate_board (W H : Nat) (rps : List GridPosition) :
    wfBoard W H (generate_board W H rps) := by
  rw [generate_board_eq_writeFold]
  exact wfBoard_writeFold W H _ _ _ _ _ (wfBoard_base_board W H)

theorem posInv_generate_board (W H : Nat) (rps : List GridPosition) :
    posInv W H (generate_board W H rps) := by
  intro x hx y hy
  rw [generate_board_eq_writeFold,
    position_writeFold (fun p : GridPosition => p.x.toNat) (fun p => p.y.toNat)
      (fun _ c => { c with dead := false }) (fun _ _ => rfl) rps _ x y,
    getCell_base_board W H x y hx hy]

theorem board_key_down_event (k : KeyCode) (s : GameState) :
    (key_down_event k s).board = s.board := by
  cases k with
  | Space =>
    unfold key_down_event
    by_cases hr : s.run = true
    · rw [if_pos hr]
    · rw [if_neg hr]
  | Back => rfl
  | Other c => rfl

theorem mouse_cond_iff (W H : Nat) (s : GameState) (gx gy : Int)
    (hwf : wfBoard W H s.board) :
    (0 ≤ gx ∧ gx.toNat < s.board.length ∧ 0 ≤ gy ∧
      gy.toNat < (s.board.getD gx.toNat []).length) ↔
    (0 ≤ gx ∧ gx < (W : Int) ∧ 0 ≤ gy ∧ gy < (H : Int)) := by
  constructor
  · rintro ⟨h1, h2, h3, h4⟩
    rw [hwf.1] at h2
    rw [hwf.2 gx.toNat h2] at h4
    exact ⟨h1, by omega, h3, by omega⟩
  · rintro ⟨h1, h2, h3, h4⟩
    have hx : gx.toNat < W := by omega
    refine ⟨h1, by rw [hwf.1]; exact hx, h3, ?_⟩
    rw [hwf.2 gx.toNat hx]
    omega

theorem mouse_in_range (W H cw ch : Nat) (x y : Int) (s : GameState)
    (hwf : wfBoard W H s.board)
    (hin : 0 ≤ Int.tdiv x (cw : Int) ∧ Int.tdiv x (cw : Int) < (W : Int) ∧
      0 ≤ Int.tdiv y (ch : Int) ∧ Int.tdiv y (ch : Int) < (H : Int)) :
    mouse_button_down_event cw ch x y s =
      some { s with board := (toggle s.board (Int.tdiv x (cw : Int)).toNat
          (Int.tdiv y (ch : Int)).toNat) } := by
  have hcond := (mouse_cond_iff W H s (Int.tdiv x (cw : Int)) (Int.tdiv y (ch : Int)) hwf).2 hin
  have hgx : (((Int.tdiv x (cw : Int)).toNat : Int)) = Int.tdiv x (cw : Int) :=
    Int.toNat_of_nonneg hin.1
  have hgy : (((Int.tdiv y (ch : Int)).toNat : Int)) = Int.tdiv y (ch : Int) :=
    Int.toNat_of_nonneg hin.2.2.1
  simp only [mouse_button_down_event, toggle]
  rw [if_pos hcond]
  cases hd : (getCell s.board (Int.tdiv x (cw : Int)).toNat
      (Int.tdiv y (ch : Int)).toNat).dead
  · rw [if_neg (by simp), if_neg (by simp)]
  · rw [if_pos rfl, if_pos rfl, hgx, hgy]

theorem wfBoard_toggle (W H : Nat) (b : Board) (gx gy : Nat)
    (hwf : wfBoard W H b) : wfBoard W H (toggle b gx gy) := by
  simp only [toggle]
  split
  · exact wfBoard_setCell W H b gx gy _ hwf
  · exact wfBoard_setCell W H b gx gy _ hwf

theorem posInv_toggle (W H : Nat) (b : Board) (gx gy : Nat)
    (hwf : wfBoard W H b) (hpi : posInv W H b) : posInv W H (toggle b gx gy) := by
  intro x hx y hy
  by_cases hxy : (x, y) = (gx, gy)
  · injection hxy with h1 h2
    subst h1; subst h2
    have hxlen : x < b.length := by rw [hwf.1]; exact hx
    have hylen : y < (b.getD x []).length := by rw [hwf.2 x hx]; exact hy
    simp only [toggle]
    split
    · rw [getCell_setCell_self b x y _ hxlen hylen]
    · rw [getCell_setCell_self b x y _ hxlen hylen]
      exact hpi x hx y hy
  · have hne : (gx, gy) ≠ (x, y) := fun h => hxy h.symm
    simp only [toggle]
    split
    · rw [getCell_setCell_ne b gx gy _ x y hne]
      exact hpi x hx y hy
    · rw [getCell_setCell_ne b gx gy _ x y hne]
      exact hpi x hx y hy

theorem getCell_toggle_ne (b : Board) (gx gy x y : Nat)
    (h : (x, y) ≠ (gx, gy)) : getCell (toggle b gx gy) x y = getCell b x y := by
  have hne : (gx, gy) ≠ (x, y) := fun hh => h hh.symm
  simp only [toggle]
  split
  · exact getCell_setCell_ne b gx gy _ x y hne
  · exact getCell_setCell_ne b gx gy _ x y hne

theorem mouse_out_of_range (W H cw ch : Nat) (x y : Int) (s : GameState)
    (hwf : wfBoard W H s.board)
    (hout : ¬(0 ≤ Int.tdiv x (cw : Int) ∧ Int.tdiv x (cw : Int) < (W : Int) ∧
      0 ≤ Int.tdiv y (ch : Int) ∧ Int.tdiv y (ch : Int) < (H : Int))) :
    mouse_button_down_event cw ch x y s = none := by
  simp only [mouse_button_down_event]
  rw [if_neg (fun hc =>
    hout ((mouse_cond_iff W H s (Int.tdiv x (cw : Int)) (Int.tdiv y (ch : Int)) hwf).1 hc))]

theorem update_not_elapsed (W H mpu now : Nat) (s : GameState)
    (h : now - s.last_update < mpu) : update W H mpu now s = s := by
  unfold update
  rw [if_neg (by omega)]

theorem update_elapsed_eq (W H mpu now : Nat) (s : GameState)
    (h : mpu ≤ now - s.last_update) :
    update W H mpu now s =
      { board := if s.run then
            step W H (if s.reset_board then clearBoard W H s.board else s.board)
          else (if s.reset_board then clearBoard W H s.board else s.board),
        last_update := now, run := s.run,
        reset_board := false } := by
  unfold update
  rw [if_pos h]
  by_cases hr : s.reset_board <;> by_cases hrun : s.run <;> simp [hr, hrun]

theorem update_paused (W H mpu now : Nat) (s : GameState)
    (hrun : s.run = false) (hreset : s.reset_board = false) :
    update W H mpu now s =
      if mpu ≤ now - s.last_update then { s with last_update := now } else s := by
  by_cases h : mpu ≤ now - s.last_update
  · rw [update_elapsed_eq W H mpu now s h, if_pos h, hrun, hreset]
    simp [hreset]
  · rw [update_not_elapsed W H mpu now s (by omega), if_neg h]

theorem update_preserve_inv (W H mpu now : Nat) (s : GameState)
    (hwf : wfBoard W H s.board) (hpi : posInv W H s.board) :
    wfBoard W H (update W H mpu now s).board ∧
      posInv W H (update W H mpu now s).board := by
  by_cases h : mpu ≤ now - s.last_update
  · rw [update_elapsed_eq W H mpu now s h]
    by_cases hr : s.reset_board <;> by_cases hrun : s.run <;> simp [hr, hrun] <;>
      first
        | exact ⟨wfBoard_step W H _ (wfBoard_clearBoard W H _ hwf),
            posInv_step W H _ (posInv_clearBoard W H _ hpi)⟩
        | exact ⟨wfBoard_clearBoard W H _ hwf, posInv_clearBoard W H _ hpi⟩
        | exact ⟨wfBoard_step W H _ hwf, posInv_step W H _ hpi⟩
        | exact ⟨hwf, hpi⟩
  · rw [update_not_elapsed W H mpu now s (by omega)]
    exact ⟨hwf, hpi⟩

theorem update_reset_elapsed (W H mpu now : Nat) (s : GameState)
    (hwf : wfBoard W H s.board) (h : mpu ≤ now - s.last_update)
    (hr : s.reset_board = true) :
    allDead W H (update W H mpu now s).board := by
  rw [update_elapsed_eq W H mpu now s h]
  by_cases hrun : s.run <;> simp [hr, hrun] <;>
    first
      | exact allDead_step W H _ (wfBoard_clearBoard W H _ hwf)
          (allDead_clearBoard W H _ hwf)
      | exact allDead_clearBoard W H _ hwf

theorem inv_applyEvent (W H cw ch mpu : Nat) (s s' : GameState) (e : GEvent)
    (hwf : wfBoard W H s.board) (hpi : posInv W H s.board)
    (h : applyEvent W H cw ch mpu s e = some s') :
    wfBoard W H s'.board ∧ posInv W H s'.board := by
  cases e with
  | tick now =>
    simp only [applyEvent] at h
    injection h with h'
    subst h'
    exact update_preserve_inv W H mpu now s hwf hpi
  | key k =>
    simp only [applyEvent] at h
    injection h with h'
    subst h'
    rw [board_key_down_event]
    exact ⟨hwf, hpi⟩
  | click x y =>
    simp only [applyEvent] at h
    by_cases hin : (0 ≤ Int.tdiv x (cw : Int) ∧ Int.tdiv x (cw : Int) < (W : Int) ∧
        0 ≤ Int.tdiv y (ch : Int) ∧ Int.tdiv y (ch : Int) < (H : Int))
    · rw [mouse_in_range W H cw ch x y s hwf hin] at h
      injection h with h'
      subst h'
      exact ⟨wfBoard_toggle W H _ _ _ hwf, posInv_toggle W H _ _ _ hwf hpi⟩
    · rw [mouse_out_of_range W H cw ch x y s hwf hin] at h
      exact Option.noConfusion h

theorem inv_applyEvents (W H cw ch mpu : Nat) (evs : List GEvent) :
    ∀ s s', wfBoard W H s.board → posInv W H s.board →
      applyEvents W H cw ch mpu evs s = some s' →
      wfBoard W H s'.board ∧ posInv W H s'.board := by
  induction evs with
  | nil =>
    intro s s' hwf hpi h
    simp only [applyEvents] at h
    injection h with h'
    subst h'
    exact ⟨hwf, hpi⟩
  | cons e evs ih =>
    intro s s' hwf hpi h
    simp only [applyEvents] at h
    cases he : applyEvent W H cw ch mpu s e with
    | none =>
      rw [he] at h
      exact Option.noConfusion h
    | some s1 =>
      rw [he] at h
      obtain ⟨hw1, hp1⟩ := inv_applyEvent W H cw ch mpu s s1 e hwf hpi he
      exact ih s1 s' hw1 hp1 h

theorem allDead_wf_iterate (W H : Nat) (B : Board) (hwf : wfBoard W H B) (n : Nat) :
    allDead W H ((step W H)^[n] (clearBoard W H B)) ∧
      wfBoard W H ((step W H)^[n] (clearBoard W H B)) := by
  induction n with
  | zero =>
    simpa using ⟨allDead_clearBoard W H B hwf, wfBoard_clearBoard W H B hwf⟩
  | succ n ih =>
    rw [Function.iterate_succ_apply']
    exact ⟨allDead_step W H _ ih.2 ih.1, wfBoard_step W H _ ih.2⟩

/-- Claim C1: for every board and every in-range position, the cell at
`(x, y)` after `step` is alive exactly when either it was dead with exactly 3
live neighbors, or it was alive with exactly 2 or 3 live neighbors; in all
other cases it is dead — uniformly at edges and interior. -/
theorem C1_step_birth_survival (W H : Nat) (B : Board) (x y : Nat)
    (hwf : wfBoard W H B) (hpi : posInv W H B) (hx : x < W) (hy : y < H) :
    ((getCell (step W H B) x y).dead = false ↔
      (((getCell B x y).dead = true ∧ specNeighborCount W H B x y = 3) ∨
        ((getCell B x y).dead = false ∧
          (specNeighborCount W H B x y = 2 ∨ specNeighborCount W H B x y = 3)))) := by
  rw [getCell_step W H B hwf x y hx hy,
    neighbor_count_eq_spec W H B (getCell B x y) x y hx hy (hpi x hx y hy),
    updateCellDead_eq_specRule]
  cases hd : (getCell B x y).dead
  · simp [specRule, hd]
    tauto
  · simp [specRule, hd]

/-- Claim C2: for every board and in-range position, `neighbor_count` is at
most 8 and equals the exact number of alive cells among the in-range
8-adjacent positions; out-of-grid neighbors are excluded, never wrapped. -/
theorem C2_neighbor_count_exact (W H : Nat) (B : Board) (cell : Cell)
    (x y : Nat) (hx : x < W) (hy : y < H)
    (hpos : cell.position = ⟨(x : Int), (y : Int)⟩) :
    neighbor_count W H B cell = specNeighborCount W H B x y ∧
      neighbor_count W H B cell ≤ 8 :=
  ⟨neighbor_count_eq_spec W H B cell x y hx hy hpos,
    neighbor_count_le_eight W H B cell⟩

/-- Claim C3 (code-bug evidence): a click whose screen coordinates map by
truncating division to a grid position outside `[0,W) × [0,H)` makes the
handler index the board out of bounds — a panic, modelled as `none` — instead
of leaving the board unchanged without an error as the claim states. -/
theorem C3_out_of_range_click_panics (W H cw ch : Nat) (x y : Int)
    (s : GameState) (hwf : wfBoard W H s.board)
    (hout : ¬(0 ≤ Int.tdiv x (cw : Int) ∧ Int.tdiv x (cw : Int) < (W : Int) ∧
      0 ≤ Int.tdiv y (ch : Int) ∧ Int.tdiv y (ch : Int) < (H : Int))) :
    mouse_button_down_event cw ch x y s = none :=
  mouse_out_of_range W H cw ch x y s hwf hout

/-- Claim C4: the in-place update loop of `step` (which reads neighbor counts
from the pre-step clone and each cell from the partially updated board) equals
the reference step computed wholly from a snapshot of the previous generation
by the classical rule; determinism is immediate since `step` is a function of
the board alone. -/
theorem C4_step_equals_snapshot_reference (W H : Nat) (B : Board)
    (hwf : wfBoard W H B) (hpi : posInv W H B) :
    step W H B = stepSpec W H B :=
  step_eq_stepSpec W H B hwf hpi

/-- Claim C5: after the reset key stages a reset, a tick arriving before the
interval leaves the state (board included) unchanged with the reset still
pending; a tick at or after the interval makes the board all-dead (the staged
reset is applied before any step), clears the pending flag, and records the
tick time — which is touched only on eligible ticks. -/
theorem C5_reset_staging (W H mpu : Nat) (s0 : GameState) (now1 now2 : Nat)
    (hwf : wfBoard W H s0.board) :
    (key_down_event KeyCode.Back s0).board = s0.board ∧
    (key_down_event KeyCode.Back s0).reset_board = true ∧
    (now1 - (key_down_event KeyCode.Back s0).last_update < mpu →
      update W H mpu now1 (key_down_event KeyCode.Back s0) =
        key_down_event KeyCode.Back s0) ∧
    (mpu ≤ now2 - (key_down_event KeyCode.Back s0).last_update →
      allDead W H (update W H mpu now2 (key_down_event KeyCode.Back s0)).board ∧
      (update W H mpu now2 (key_down_event KeyCode.Back s0)).reset_board = false ∧
      (update W H mpu now2 (key_down_event KeyCode.Back s0)).last_update = now2) := by
  refine ⟨rfl, rfl, ?_, ?_⟩
  · intro h1
    exact update_not_elapsed W H mpu now1 _ h1
  · intro h2
    refine ⟨?_, ?_, ?_⟩
    · exact update_reset_elapsed W H mpu now2 _ hwf h2 rfl
    · rw [update_elapsed_eq W H mpu now2 _ h2]
    · rw [update_elapsed_eq W H mpu now2 _ h2]

/-- Claim C6: from the seeded initial state, any sequence of ticks, key events
and (non-panicking, hence in-range) clicks leads only to states whose every
in-range cell stores exactly its own grid slot as its position. -/
theorem C6_position_invariant_reachable (W H cw ch mpu t0 : Nat)
    (rps : List GridPosition) (evs : List GEvent) (s : GameState)
    (h : applyEvents W H cw ch mpu evs (GameState.new W H rps t0) = some s) :
    posInv W H s.board :=
  (inv_applyEvents W H cw ch mpu evs (GameState.new W H rps t0) s
    (wfBoard_generate_board W H rps) (posInv_generate_board W H rps) h).2

/-- Claim C7: toggling an in-range position twice returns the original board,
for boards whose cells store their own slot as position (the Board data-model
invariant). -/
theorem C7_toggle_involution (W H : Nat) (B : Board) (hwf : wfBoard W H B)
    (hpi : posInv W H B) (gx gy : Nat) (hx : gx < W) (hy : gy < H) :
    toggle (toggle B gx gy) gx gy = B :=
  toggle_toggle W H B hwf hpi gx gy hx hy

/-- Claim C8: clearing a board and then stepping any number of times yields an
all-dead board: the empty configuration is a fixed point of `step`. -/
theorem C8_clear_step_all_dead (W H : Nat) (B : Board) (hwf : wfBoard W H B)
    (n : Nat) : allDead W H ((step W H)^[n] (clearBoard W H B)) :=
  (allDead_wf_iterate W H B hwf n).1

/-- Claim C9: with `run` and `reset_board` both false, a tick — eligible or
not — leaves the state unchanged except possibly `last_update`; in particular
every cell of the board is untouched. -/
theorem C9_paused_tick_freezes_board (W H mpu now : Nat) (s : GameState)
    (hrun : s.run = false) (hreset : s.reset_board = false) :
    update W H mpu now s =
      if mpu ≤ now - s.last_update then { s with last_update := now } else s :=
  update_paused W H mpu now s hrun hreset

/-- Claim C10: an in-range click only toggles the clicked cell: the resulting
state is the old one with the board replaced by `toggle` at the clicked slot
(so `run`, `reset_board` and `last_update` are unchanged), and every other
cell of the board is unchanged. -/
theorem C10_click_frame (W H cw ch : Nat) (x y : Int) (s : GameState)
    (hwf : wfBoard W H s.board)
    (hin : 0 ≤ Int.tdiv x (cw : Int) ∧ Int.tdiv x (cw : Int) < (W : Int) ∧
      0 ≤ Int.tdiv y (ch : Int) ∧ Int.tdiv y (ch : Int) < (H : Int)) :
    mouse_button_down_event cw ch x y s =
      some { s with board := (toggle s.board (Int.tdiv x (cw : Int)).toNat
          (Int.tdiv y (ch : Int)).toNat) } ∧
    (∀ x' y' : Nat,
      (x', y') ≠ ((Int.tdiv x (cw : Int)).toNat, (Int.tdiv y (ch : Int)).toNat) →
      getCell (toggle s.board (Int.tdiv x (cw : Int)).toNat
        (Int.tdiv y (ch : Int)).toNat) x' y' = getCell s.board x' y') :=
  ⟨mouse_in_range W H cw ch x y s hwf hin,
    fun x' y' hne => getCell_toggle_ne s.board _ _ x' y' hne⟩

theorem C1_witness :
    wfBoard 2 2 (toggle (toggle (toggle (generate_board 2 2 []) 0 0) 0 1) 1 0) ∧ posInv 2 2 (toggle (toggle (toggle (generate_board 2 2 []) 0 0) 0 1) 1 0) ∧ 1 < 2 ∧ 1 < 2 ∧
    ((getCell (step 2 2 (toggle (toggle (toggle (generate_board 2 2 []) 0 0) 0 1) 1 0)) 1 1).dead = false ↔
      (((getCell (toggle (toggle (toggle (generate_board 2 2 []) 0 0) 0 1) 1 0) 1 1).dead = true ∧ specNeighborCount 2 2 (toggle (toggle (toggle (generate_board 2 2 []) 0 0) 0 1) 1 0) 1 1 = 3) ∨
        ((getCell (toggle (toggle (toggle (generate_board 2 2 []) 0 0) 0 1) 1 0) 1 1).dead = false ∧
          (specNeighborCount 2 2 (toggle (toggle (toggle (generate_board 2 2 []) 0 0) 0 1) 1 0) 1 1 = 2 ∨
            specNeighborCount 2 2 (toggle (toggle (toggle (generate_board 2 2 []) 0 0) 0 1) 1 0) 1 1 = 3)))) :=
  ⟨by decide, by decide, by decide, by decide,
    C1_step_birth_survival 2 2 (toggle (toggle (toggle (generate_board 2 2 []) 0 0) 0 1) 1 0) 1 1 (by decide) (by decide) (by decide) (by decide)⟩

theorem C2_witness :
    1 < 2 ∧ 0 < 2 ∧ (getCell (toggle (generate_board 2 2 []) 0 0) 1 0).position = ⟨(1 : Int), (0 : Int)⟩ ∧
    (neighbor_count 2 2 (toggle (generate_board 2 2 []) 0 0) (getCell (toggle (generate_board 2 2 []) 0 0) 1 0) = specNeighborCount 2 2 (toggle (generate_board 2 2 []) 0 0) 1 0 ∧
      neighbor_count 2 2 (toggle (generate_board 2 2 []) 0 0) (getCell (toggle (generate_board 2 2 []) 0 0) 1 0) ≤ 8) :=
  ⟨by decide, by decide, by decide,
    C2_neighbor_count_exact 2 2 (toggle (generate_board 2 2 []) 0 0) (getCell (toggle (generate_board 2 2 []) 0 0) 1 0) 1 0
      (by decide) (by decide) (by decide)⟩

theorem C3_witness :
    wfBoard 2 2 (GameState.new 2 2 [] 0).board ∧
    ¬(0 ≤ Int.tdiv 1000 ((10 : Nat) : Int) ∧
      Int.tdiv 1000 ((10 : Nat) : Int) < ((2 : Nat) : Int) ∧
      0 ≤ Int.tdiv 0 ((10 : Nat) : Int) ∧
      Int.tdiv 0 ((10 : Nat) : Int) < ((2 : Nat) : Int)) ∧
    mouse_button_down_event 10 10 1000 0 (GameState.new 2 2 [] 0) = none :=
  ⟨by decide, by decide,
    C3_out_of_range_click_panics 2 2 10 10 1000 0 (GameState.new 2 2 [] 0) (by decide) (by decide)⟩

theorem C4_witness :
    wfBoard 3 3 (toggle (toggle (toggle (generate_board 3 3 []) 0 1) 1 1) 2 1) ∧ posInv 3 3 (toggle (toggle (toggle (generate_board 3 3 []) 0 1) 1 1) 2 1) ∧ step 3 3 (toggle (toggle (toggle (generate_board 3 3 []) 0 1) 1 1) 2 1) = stepSpec 3 3 (toggle (toggle (toggle (generate_board 3 3 []) 0 1) 1 1) 2 1) :=
  ⟨by decide, by decide,
    C4_step_equals_snapshot_reference 3 3 (toggle (toggle (toggle (generate_board 3 3 []) 0 1) 1 1) 2 1) (by decide) (by decide)⟩

theorem C5_witness :
    wfBoard 2 2 (GameState.mk (toggle (generate_board 2 2 []) 0 0) 0 true false).board ∧
    update 2 2 50 10 (key_down_event KeyCode.Back (GameState.mk (toggle (generate_board 2 2 []) 0 0) 0 true false)) =
      key_down_event KeyCode.Back (GameState.mk (toggle (generate_board 2 2 []) 0 0) 0 true false) ∧
    allDead 2 2 (update 2 2 50 60 (key_down_event KeyCode.Back (GameState.mk (toggle (generate_board 2 2 []) 0 0) 0 true false))).board ∧
    (update 2 2 50 60 (key_down_event KeyCode.Back (GameState.mk (toggle (generate_board 2 2 []) 0 0) 0 true false))).reset_board = false ∧
    (update 2 2 50 60 (key_down_event KeyCode.Back (GameState.mk (toggle (generate_board 2 2 []) 0 0) 0 true false))).last_update = 60 :=
  ⟨by decide,
    (C5_reset_staging 2 2 50 (GameState.mk (toggle (generate_board 2 2 []) 0 0) 0 true false) 10 60 (by decide)).2.2.1 (by decide),
    ((C5_reset_staging 2 2 50 (GameState.mk (toggle (generate_board 2 2 []) 0 0) 0 true false) 10 60 (by decide)).2.2.2 (by decide)).1,
    ((C5_reset_staging 2 2 50 (GameState.mk (toggle (generate_board 2 2 []) 0 0) 0 true false) 10 60 (by decide)).2.2.2 (by decide)).2.1,
    ((C5_reset_staging 2 2 50 (GameState.mk (toggle (generate_board 2 2 []) 0 0) 0 true false) 10 60 (by decide)).2.2.2 (by decide)).2.2⟩

theorem C6_witness :
    applyEvents 2 2 10 10 50 [GEvent.key KeyCode.Space, GEvent.tick 100, GEvent.click 5 5] (GameState.new 2 2 [] 0) = some ((applyEvents 2 2 10 10 50 [GEvent.key KeyCode.Space, GEvent.tick 100, GEvent.click 5 5] (GameState.new 2 2 [] 0)).getD (GameState.new 2 2 [] 0)) ∧
    posInv 2 2 ((applyEvents 2 2 10 10 50 [GEvent.key KeyCode.Space, GEvent.tick 100, GEvent.click 5 5] (GameState.new 2 2 [] 0)).getD (GameState.new 2 2 [] 0)).board :=
  ⟨by decide,
    C6_position_invariant_reachable 2 2 10 10 50 0 [] [GEvent.key KeyCode.Space, GEvent.tick 100, GEvent.click 5 5] ((applyEvents 2 2 10 10 50 [GEvent.key KeyCode.Space, GEvent.tick 100, GEvent.click 5 5] (GameState.new 2 2 [] 0)).getD (GameState.new 2 2 [] 0)) (by decide)⟩

theorem C7_witness :
    wfBoard 2 2 (toggle (generate_board 2 2 []) 0 1) ∧ posInv 2 2 (toggle (generate_board 2 2 []) 0 1) ∧ 0 < 2 ∧ 1 < 2 ∧
    toggle (toggle (toggle (generate_board 2 2 []) 0 1) 0 1) 0 1 = (toggle (generate_board 2 2 []) 0 1) :=
  ⟨by decide, by decide, by decide, by decide,
    C7_toggle_involution 2 2 (toggle (generate_board 2 2 []) 0 1) (by decide) (by decide) 0 1 (by decide) (by decide)⟩

theorem C8_witness :
    wfBoard 2 2 (toggle (toggle (generate_board 2 2 []) 0 0) 1 1) ∧ allDead 2 2 ((step 2 2)^[2] (clearBoard 2 2 (toggle (toggle (generate_board 2 2 []) 0 0) 1 1))) :=
  ⟨by decide, C8_clear_step_all_dead 2 2 (toggle (toggle (generate_board 2 2 []) 0 0) 1 1) (by decide) 2⟩

theorem C9_witness :
    (GameState.mk (toggle (generate_board 2 2 []) 0 0) 0 false false).run = false ∧ (GameState.mk (toggle (generate_board 2 2 []) 0 0) 0 false false).reset_board = false ∧
    update 2 2 50 60 (GameState.mk (toggle (generate_board 2 2 []) 0 0) 0 false false) =
      (if 50 ≤ 60 - (GameState.mk (toggle (generate_board 2 2 []) 0 0) 0 false false).last_update then
        GameState.mk (GameState.mk (toggle (generate_board 2 2 []) 0 0) 0 false false).board 60 (GameState.mk (toggle (generate_board 2 2 []) 0 0) 0 false false).run (GameState.mk (toggle (generate_board 2 2 []) 0 0) 0 false false).reset_board else (GameState.mk (toggle (generate_board 2 2 []) 0 0) 0 false false)) :=
  ⟨rfl, rfl, C9_paused_tick_freezes_board 2 2 50 60 (GameState.mk (toggle (generate_board 2 2 []) 0 0) 0 false false) (by decide) (by decide)⟩

theorem C10_witness :
    wfBoard 2 2 (GameState.mk (toggle (generate_board 2 2 []) 0 0) 0 false false).board ∧
    (0 ≤ Int.tdiv 5 ((10 : Nat) : Int) ∧
      Int.tdiv 5 ((10 : Nat) : Int) < ((2 : Nat) : Int) ∧
      0 ≤ Int.tdiv 15 ((10 : Nat) : Int) ∧
      Int.tdiv 15 ((10 : Nat) : Int) < ((2 : Nat) : Int)) ∧
    mouse_button_down_event 10 10 5 15 (GameState.mk (toggle (generate_board 2 2 []) 0 0) 0 false false) =
      some (GameState.mk
        (toggle (GameState.mk (toggle (generate_board 2 2 []) 0 0) 0 false false).board (Int.tdiv 5 ((10 : Nat) : Int)).toNat
          (Int.tdiv 15 ((10 : Nat) : Int)).toNat)
        (GameState.mk (toggle (generate_board 2 2 []) 0 0) 0 false false).last_update (GameState.mk (toggle (generate_board 2 2 []) 0 0) 0 false false).run (GameState.mk (toggle (generate_board 2 2 []) 0 0) 0 false false).reset_board) :=
  ⟨by decide, by decide,
    (C10_click_frame 2 2 10 10 5 15 (GameState.mk (toggle (generate_board 2 2 []) 0 0) 0 false false) (by decide) (by decide)).1⟩
